import Mathlib

/-!
# RoboCam — verification of the motion-controller, path-generator and
# experiment-runner core

Shallow embedding of the protocol/geometry/orchestration logic of the
RoboCam repository:

* `GCode.send_gcode` response resolution (claude9jan/microscope/hardware/gcode.py,
  lines 98–148, and the identical logic in claude8jan/hardware/gcode.py 85–134),
* `GCode.move_xyz` of both variants (claude9jan gcode.py 150–165,
  claude8jan gcode.py 136–147),
* `GCode.get_current_position` (claude9jan gcode.py 278–302),
* `PathfinderGUI.generate_path` / `generate_snake_path` / `generate_raster_path`
  (claude9jan/microscope/gui/pathfinder_gui.py 174–241) with the
  `WELL_PLATE` constants of claude9jan/microscope/config.py,
* the travel-distance measure of claude8jan/utils/path_generator.py
  (`calculate_travel_time`, lines 54–79; we model its total Euclidean
  distance, the factor `1/feedrate` being a positive constant),
* `Experiment._execute_iteration`, `_experiment_loop`, `stop`, `pause`
  (claude9jan/microscope/utils/experiment.py 188–307).

Side-effect-free Python code becomes Lean functions; the mutable object
state of `GCode` and `Experiment` becomes explicit state records, and the
externally produced inputs (serial response lines, send outcomes, camera
frames, file-write results, and the cross-thread `is_running`/`is_paused`
flag values observed at each loop boundary) become explicit parameters.
Callback invocations and file writes are recorded as an event list.
-/

/-- `startsL n h` : `n` is a prefix of `h` (over character lists). -/
def startsL : List Char → List Char → Bool
  | [], _ => true
  | _ :: _, [] => false
  | c :: cs, d :: ds => c == d && startsL cs ds

/-- `subL n h` : `n` occurs as a contiguous substring of `h`. -/
def subL (n : List Char) : List Char → Bool
  | [] => startsL n []
  | c :: cs => startsL n (c :: cs) || subL n cs

/-- Models the Python test `needle in line.lower()` of gcode.py lines 129/132:
the response line is lowercased (`Char.toLower`, adequate for the ASCII
responses of the firmware) and the (already lowercase) needle is searched
as a substring. -/
def containsCI (needle line : String) : Bool :=
  subL needle.toList (line.toList.map Char.toLower)

/-- Outcome of one `send_gcode` wait (PendingCommand outcome). -/
inductive Outcome
  | Acknowledged
  | Failed
  | TimedOut
deriving DecidableEq, Repr

/-- The response-wait loop of `GCode.send_gcode` (claude9jan gcode.py
lines 122–142, identically claude8jan gcode.py 107–129): the listener
hands over received lines one at a time; a line containing `"ok"`
(case-insensitive) returns `True` (Acknowledged), otherwise a line
containing `"error"` returns `False` (Failed), any other line is skipped
and waiting continues; if the lines run out before a resolving line
arrives, the timeout branch returns `False` (TimedOut).  The list
argument is the sequence of response lines received within the timeout
budget. -/
def resolveLines : List String → Outcome
  | [] => .TimedOut
  | l :: ls =>
    if containsCI "ok" l then .Acknowledged
    else if containsCI "error" l then .Failed
    else resolveLines ls

/-- A position triple, `{'X': …, 'Y': …, 'Z': …}`. -/
structure Pos3 (α : Type) where
  X : α
  Y : α
  Z : α
deriving DecidableEq, Repr

/-- Mutable state of the claude9jan `GCode` object relevant to motion:
`current_position`, `target_position` and `feedrate` (gcode.py lines
20–23).  Coordinates are exact rationals standing for Python floats. -/
structure GState where
  current_position : Pos3 ℚ
  target_position : Pos3 ℚ
  feedrate : ℚ
deriving DecidableEq, Repr

/-- The data interpolated into the move command string
`"G1 X{x} Y{y} Z{z} F{feedrate}"` (gcode.py line 155 / claude8jan line 141). -/
structure MoveCmd where
  x : ℚ
  y : ℚ
  z : ℚ
  f : ℚ
deriving DecidableEq, Repr

/-- `GCode.move_xyz` of claude9jan gcode.py lines 150–165.  The outcome of
`send_gcode` is the explicit parameter `sendOk`.  After a successful send
the source loops `while self.is_moving(): …`; `self._is_moving` is
initialised `False` (line 27) and is never assigned `True` anywhere in the
class (line 275 only re-assigns `False`), so `is_moving` returns `False`
at once (line 248–249) and the loop body never runs — the loop is a
no-op on the state.  Returns the boolean result, the new state, and the
command data sent. -/
def move_xyz (s : GState) (x y z : ℚ) (sendOk : Bool) :
    Bool × GState × MoveCmd :=
  let cx := max 0 x
  let cy := max 0 y
  let cz := max 0 z
  let cmd : MoveCmd := ⟨cx, cy, cz, s.feedrate⟩
  let s1 : GState := { s with target_position := ⟨cx, cy, cz⟩ }
  if sendOk then
    (true, { s1 with current_position := ⟨cx, cy, cz⟩ }, cmd)
  else
    (false, s1, cmd)

/-- Mutable state of the claude8jan `GCode` object relevant to motion
(claude8jan gcode.py lines 14–15: `current_position` and `feedrate`;
this variant has no `target_position`). -/
structure GState8 where
  current_position : Pos3 ℚ
  feedrate : ℚ
deriving DecidableEq, Repr

/-- `GCode.move_xyz` of claude8jan gcode.py lines 136–147.  It clamps,
sends the command, *ignores* the boolean result of `send_gcode`, then
unconditionally assigns the clamped target to `current_position`; the
method body has no `return`, so Python returns `None` — modelled by
returning no boolean at all.  `sendOk` is the outcome of the inner
`send_gcode` (it influences nothing). -/
def move_xyz8 (s : GState8) (x y z : ℚ) (_sendOk : Bool) :
    GState8 × MoveCmd :=
  let cx := max 0 x
  let cy := max 0 y
  let cz := max 0 z
  let cmd : MoveCmd := ⟨cx, cy, cz, s.feedrate⟩
  ({ s with current_position := ⟨cx, cy, cz⟩ }, cmd)

/-- Updates the axis dictionary `pos` of `get_current_position`
(gcode.py line 293, `pos[axis] = float(value)`); the three components are
the optional `X`, `Y`, `Z` entries. -/
def setAxis (acc : Option ℚ × Option ℚ × Option ℚ) (axis : String) (v : ℚ) :
    Option ℚ × Option ℚ × Option ℚ :=
  if axis = "X" then (some v, acc.2.1, acc.2.2)
  else if axis = "Y" then (acc.1, some v, acc.2.2)
  else (acc.1, acc.2.1, some v)

/-- Python `part.split(sep)` for a single-character separator `c`: cut at
every occurrence of `c`, keeping empty pieces (so a string with `n`
occurrences of `c` yields `n + 1` pieces). -/
def splitChar (c : Char) : List Char → List (List Char)
  | [] => [[]]
  | d :: ds =>
    if d == c then [] :: splitChar c ds
    else
      match splitChar c ds with
      | [] => [[d]]
      | h :: t => (d :: h) :: t

/-- Python `response.split()` with no separator, over the characters:
split on runs of whitespace and drop empty pieces.  `cur` holds the
characters of the current word in reverse. -/
def splitWsAux (cur : List Char) : List Char → List (List Char)
  | [] => if cur.isEmpty then [] else [cur.reverse]
  | d :: ds =>
    if d.isWhitespace then
      if cur.isEmpty then splitWsAux [] ds
      else cur.reverse :: splitWsAux [] ds
    else splitWsAux (d :: cur) ds

/-- Python `response.split()`: the whitespace-separated words. -/
def pyWords (r : String) : List String :=
  (splitWsAux [] r.toList).map (fun cs => String.mk cs)

/-- The parsing loop of `GCode.get_current_position` (gcode.py lines
287–293): for each whitespace-separated part containing a colon,
`axis, value = part.split(':')` — which raises `ValueError` when the part
holds more than one colon — then `float(value)` (a `ValueError` on an
unparsable number is modelled by `pfloat value = none`); parts whose axis
is not `X`/`Y`/`Z` are skipped.  A raised `ValueError` aborts the whole
parse (`none`); otherwise the accumulated axis dictionary is returned. -/
def parseParts (pfloat : String → Option ℚ) :
    List String → (Option ℚ × Option ℚ × Option ℚ) →
    Option (Option ℚ × Option ℚ × Option ℚ)
  | [], acc => some acc
  | p :: rest, acc =>
    if p.toList.contains ':' then
      match splitChar ':' p.toList with
      | [axis, value] =>
        if String.mk axis = "X" || String.mk axis = "Y" || String.mk axis = "Z" then
          match pfloat (String.mk value) with
          | some v => parseParts pfloat rest (setAxis acc (String.mk axis) v)
          | none => none
        else parseParts pfloat rest acc
      | _ => none
    else parseParts pfloat rest acc

/-- `GCode.get_current_position` of claude9jan gcode.py lines 278–302.
`pfloat` models Python `float()` (`none` = `ValueError`); `sendOk` is the
result of `send_gcode "M114"`; `resp` is what `_get_printer_response`
returned.  When the parse finds all three axes (`len(pos) == 3`, line 294)
the parsed triple overwrites `current_position` and is returned; on a send
failure, a missing response, a `ValueError`, or a missing axis the method
returns `None` and leaves the state untouched.  (An empty response string
is falsy in Python and skips the parse; parsing it here yields no axes and
hence the same `none`/unchanged result.) -/
def get_current_position (pfloat : String → Option ℚ) (sendOk : Bool)
    (resp : Option String) (s : GState) : Option (Pos3 ℚ) × GState :=
  if sendOk then
    match resp with
    | some r =>
      match parseParts pfloat (pyWords r) (none, none, none) with
      | some (some x, some y, some z) =>
        (some ⟨x, y, z⟩, { s with current_position := ⟨x, y, z⟩ })
      | _ => (none, s)
    | none => (none, s)
  else (none, s)

/-- A digits-and-one-optional-dot decimal parser: a concrete stand-in for
Python `float()` on the plain numeric fields of an `M114` response, used
to instantiate `pfloat` on concrete inputs. -/
def decDigitsAux (acc : ℕ) : List Char → Option ℕ
  | [] => some acc
  | c :: cs =>
    if c.isDigit then decDigitsAux (acc * 10 + (c.toNat - 48)) cs else none

/-- Read a digit string as a natural number; `none` on a non-digit. -/
def decDigits (l : List Char) : Option ℕ := decDigitsAux 0 l

/-- Parse a nonnegative decimal literal like `"12.75"` into an exact
rational; `none` on anything else. -/
def simpleFloat (v : String) : Option ℚ :=
  match splitChar '.' v.toList with
  | [w] =>
    if w.isEmpty then none else (decDigits w).map (fun n => (n : ℚ))
  | [w, fr] =>
    if w.isEmpty || fr.isEmpty then none
    else
      match decDigits w, decDigits fr with
      | some a, some b => some ((a : ℚ) + (b : ℚ) / (10 : ℚ) ^ fr.length)
      | _, _ => none
  | _ => none

/-- `WELL_PLATE['ROWS']` of claude9jan/microscope/config.py. -/
def WELL_PLATE_ROWS : ℕ := 6

/-- `WELL_PLATE['COLS']` of claude9jan/microscope/config.py. -/
def WELL_PLATE_COLS : ℕ := 8

/-- `WELL_PLATE['ROW_LABELS']` of claude9jan/microscope/config.py. -/
def rowLabels : List String := ["A", "B", "C", "D", "E", "F"]

/-- `WELL_PLATE['COL_LABELS']` of claude9jan/microscope/config.py. -/
def colLabels : List String := ["1", "2", "3", "4", "5", "6", "7", "8"]

/-- One entry of `self.path_points`: `{'X': x, 'Y': y, 'Z': z, 'well': id}`
(pathfinder_gui.py lines 219–224).  Coordinates are polymorphic so that
the same generator serves exact evaluation (ℚ) and the real-valued
distance statement (ℝ). -/
structure WellPt (α : Type) where
  X : α
  Y : α
  Z : α
  well : String
deriving DecidableEq, Repr

/-- The scan-pattern choice of the GUI option menu (`"snake"`/`"raster"`). -/
inductive Pattern
  | snake
  | raster
deriving DecidableEq, Repr

/-- `PathfinderGUI.generate_snake_path` (pathfinder_gui.py lines 206–224):
row-major double loop; on an odd row (`row % 2` truthy) the column index
is reversed (`cols - 1 - col`); the point is
`(A1.X + col_idx*x_step, A1.Y + row*y_step, A1.Z)` and the well id is
`ROW_LABELS[row] + COL_LABELS[col_idx]` (out-of-range indices never occur
for the 6×8 plate; `getD _ ""` totalises the list indexing). -/
def generate_snake_path {α : Type} [Field α] (a1 : Pos3 α)
    (rows cols : ℕ) (x_step y_step : α) : List (WellPt α) :=
  (List.range rows).flatMap (fun row =>
    (List.range cols).map (fun col =>
      let ci := if row % 2 = 1 then cols - 1 - col else col
      { X := a1.X + (ci : α) * x_step
        Y := a1.Y + (row : α) * y_step
        Z := a1.Z
        well := rowLabels.getD row "" ++ colLabels.getD ci "" }))

/-- `PathfinderGUI.generate_raster_path` (pathfinder_gui.py lines 226–241):
as the snake path but the column index is never reversed. -/
def generate_raster_path {α : Type} [Field α] (a1 : Pos3 α)
    (rows cols : ℕ) (x_step y_step : α) : List (WellPt α) :=
  (List.range rows).flatMap (fun row =>
    (List.range cols).map (fun (col : ℕ) =>
      { X := a1.X + (col : α) * x_step
        Y := a1.Y + (row : α) * y_step
        Z := a1.Z
        well := rowLabels.getD row "" ++ colLabels.getD col "" }))

/-- `PathfinderGUI.generate_path` (pathfinder_gui.py lines 174–204) for a
corner set with all four corners present: reads `rows`/`cols` from
`WELL_PLATE`, computes
`x_step = (A8.X - A1.X)/(cols-1)`, `y_step = (F1.Y - A1.Y)/(rows-1)`,
and dispatches on the selected pattern.  (`F8` is read by no arithmetic
of the generator; it is kept as an argument because the corner dictionary
holds it.) -/
def generate_path {α : Type} [Field α] (A1 A8 _F8 F1 : Pos3 α)
    (pat : Pattern) : List (WellPt α) :=
  let rows := WELL_PLATE_ROWS
  let cols := WELL_PLATE_COLS
  let x_step := (A8.X - A1.X) / ((cols - 1 : ℕ) : α)
  let y_step := (F1.Y - A1.Y) / ((rows - 1 : ℕ) : α)
  match pat with
  | .snake => generate_snake_path A1 rows cols x_step y_step
  | .raster => generate_raster_path A1 rows cols x_step y_step

/-- Total Euclidean travel distance of a path in visit order — the
`total_distance` accumulated by `calculate_travel_time`
(claude8jan/utils/path_generator.py lines 65–77); the function's result
divides this by the constant feedrate, so distance comparison and travel
time comparison agree. -/
noncomputable def totalDist : List (WellPt ℝ) → ℝ
  | p :: q :: rest =>
    Real.sqrt ((q.X - p.X) ^ 2 + (q.Y - p.Y) ^ 2 + (q.Z - p.Z) ^ 2) +
      totalDist (q :: rest)
  | _ => 0

/-- Mutable state of the claude9jan `Experiment` object relevant to the
run loop (experiment.py lines 27–31): the cooperative flags and the
iteration counters. -/
structure ExpState where
  is_running : Bool
  is_paused : Bool
  current_iteration : ℕ
  total_iterations : ℕ
deriving DecidableEq, Repr

/-- Observable effects of the experiment code, in program order: the
`status`/`progress`/`error` callback invocations (experiment.py lines
332–346), the `gcode.move_xyz` motion commands and the successful
`cv2.imwrite` calls of `_execute_iteration`.  A write event carries the
well label and the iteration number interpolated into the file name
`{well}_{iteration:04d}_{timestamp}.jpg` (line 282); the wall-clock
timestamp is abstracted away. -/
inductive Ev
  | status (msg : String)
  | progress (cur tot : ℕ)
  | error (msg : String)
  | moveTo (well : String)
  | fileWrite (well : String) (iter : ℕ)
deriving DecidableEq, Repr

/-- What the environment supplies to one well visit of
`_execute_iteration`: the values of the cross-thread flags
`self.is_running`/`self.is_paused` observed at the loop-boundary check
(line 249), the result of `gcode.move_xyz`, whether
`camera.capture_frame()` returned a frame (`frameOk = false` models
`None`), and the result of `cv2.imwrite`. -/
structure WellEnv where
  running : Bool
  paused : Bool
  moveOk : Bool
  frameOk : Bool
  writeOk : Bool
deriving DecidableEq, Repr

/-- An undisturbed, fully successful well visit. -/
def allOk : WellEnv := ⟨true, false, true, true, true⟩

/-- How one `_execute_iteration` call ended: the `for` loop ran to
completion, or the stop/pause check returned early (line 252), or a
`RuntimeError` escaped (lines 262, 279, 288). -/
inductive IterOutcome
  | completed
  | earlyReturn
  | raised (msg : String)
deriving DecidableEq, Repr

/-- The `for point in self.path_points` loop of `_execute_iteration`
(experiment.py lines 248–291).  `env i` supplies the environment of the
visit to `pts[i]`; `iter` is the `iteration` snapshot taken at line 246.
Per well, in source order: the stop/pause check returns early; a failed
move raises; a `None` frame raises (after the move, before any write);
a failed write raises; otherwise the image file for the well is written.
The source interpolates the whole point dict resp. the file path into the
two motion/write error strings; the well label stands in for them here. -/
def iterWalk (env : ℕ → WellEnv) (iter : ℕ) :
    List (WellPt ℚ) → ℕ → List Ev × IterOutcome
  | [], _ => ([], .completed)
  | p :: rest, i =>
    let e := env i
    if e.running = false || e.paused = true then ([], .earlyReturn)
    else if e.moveOk = false then
      ([.moveTo p.well], .raised ("Failed to move to position: " ++ p.well))
    else if e.frameOk = false then
      ([.moveTo p.well], .raised "Failed to capture image")
    else if e.writeOk = false then
      ([.moveTo p.well], .raised ("Failed to save image: " ++ p.well))
    else
      let r := iterWalk env iter rest (i + 1)
      (.moveTo p.well :: .fileWrite p.well iter :: r.1, r.2)

/-- `Experiment._execute_iteration` (experiment.py lines 239–307):
snapshots `iteration = self.current_iteration`, walks the path, and — only
when the walk completed the whole path — increments
`current_iteration` and fires the progress callback (lines 294–296).  An
escaping exception first fires the error callback with
`"Iteration error: …"` (line 303) and re-raises; an early return changes
nothing. -/
def execIter (s : ExpState) (pts : List (WellPt ℚ)) (env : ℕ → WellEnv) :
    ExpState × List Ev × IterOutcome :=
  match iterWalk env s.current_iteration pts 0 with
  | (evs, .completed) =>
    ({ s with current_iteration := s.current_iteration + 1 },
      evs ++ [.progress (s.current_iteration + 1) s.total_iterations],
      .completed)
  | (evs, .earlyReturn) => (s, evs, .earlyReturn)
  | (evs, .raised m) =>
    (s, evs ++ [.error ("Iteration error: " ++ m)], .raised m)

/-- `Experiment.stop` (experiment.py lines 202–208): clears both flags and
unconditionally fires the status callback with `"Experiment stopped"`. -/
def expStop (s : ExpState) : ExpState × List Ev :=
  ({ s with is_running := false, is_paused := false },
    [.status "Experiment stopped"])

/-- `Experiment.pause` (experiment.py lines 188–193): sets `is_paused` and
fires the status callback. -/
def expPause (s : ExpState) : ExpState × List Ev :=
  ({ s with is_paused := true }, [.status "Experiment paused"])

/-- One pass of `_experiment_loop` (experiment.py lines 210–237) around a
single `_execute_iteration` call, in the case where the duration budget is
not yet exhausted and the loop is not idling on `is_paused`: an exception
raised by the iteration is caught by the loop's handler, which fires the
error callback with `"Experiment error: …"` and calls `self.stop()`
(lines 234–237). -/
def loopPass (s : ExpState) (pts : List (WellPt ℚ)) (env : ℕ → WellEnv) :
    ExpState × List Ev :=
  match execIter s pts env with
  | (s1, evs, .raised m) =>
    let r := expStop s1
    (r.1, evs ++ [.error ("Experiment error: " ++ m)] ++ r.2)
  | (s1, evs, _) => (s1, evs)

/-- The `error` callback invocations recorded in an event list. -/
def errorCount (evs : List Ev) : ℕ :=
  (evs.filter (fun e => match e with | .error _ => true | _ => false)).length

/-- The `progress` callback invocations recorded in an event list. -/
def progressCount (evs : List Ev) : ℕ :=
  (evs.filter (fun e => match e with | .progress _ _ => true | _ => false)).length

/-- The image files written, as (well label, iteration number) pairs in
write order. -/
def writesOf (evs : List Ev) : List (String × ℕ) :=
  evs.filterMap (fun e => match e with
    | .fileWrite w i => some (w, i)
    | _ => none)

/-- The wells to which motion was commanded, in visit order. -/
def movesOf (evs : List Ev) : List String :=
  evs.filterMap (fun e => match e with | .moveTo w => some w | _ => none)


/-- The 48 well labels of the 6×8 plate in raster order: the Cartesian
product of `ROW_LABELS` and `COL_LABELS`. -/
def allWellLabels : List String :=
  rowLabels.flatMap (fun r => colLabels.map (fun c => r ++ c))

/-- A response line that resolves nothing: neither `"ok"` nor `"error"`
occurs in it (case-insensitively).  Such lines are printer chatter. -/
def chatter (m : String) : Prop :=
  containsCI "ok" m = false ∧ containsCI "error" m = false

/-- `resolveLines` yields `Acknowledged` exactly when some line contains
`"ok"` and every earlier line is chatter. -/
theorem resolveLines_ack_iff (lines : List String) :
    resolveLines lines = .Acknowledged ↔
      ∃ pre l post, lines = pre ++ l :: post
        ∧ (∀ m ∈ pre, chatter m) ∧ containsCI "ok" l = true := by
  induction lines with
  | nil => simp [resolveLines]
  | cons l ls ih =>
    by_cases hok : containsCI "ok" l = true
    · simp only [resolveLines, hok, if_true]
      constructor
      · intro _
        exact ⟨[], l, ls, rfl, by simp, hok⟩
      · intro _
        trivial
    · have hok' : containsCI "ok" l = false := by
        revert hok; cases containsCI "ok" l <;> simp
      by_cases herr : containsCI "error" l = true
      · simp only [resolveLines, hok', herr, Bool.false_eq_true, if_false, if_true]
        constructor
        · intro h
          exact absurd h (by simp)
        · rintro ⟨pre, m, post, heq, hpre, hm⟩
          cases pre with
          | nil =>
            simp only [List.nil_append, List.cons.injEq] at heq
            rw [← heq.1] at hm
            exact absurd hm (by simp [hok'])
          | cons p pre2 =>
            simp only [List.cons_append, List.cons.injEq] at heq
            have hp := hpre p (by simp)
            rw [← heq.1] at hp
            exact absurd herr (by simp [hp.2])
      · have herr' : containsCI "error" l = false := by
          revert herr; cases containsCI "error" l <;> simp
        simp only [resolveLines, hok', herr', Bool.false_eq_true, if_false]
        rw [ih]
        constructor
        · rintro ⟨pre, m, post, heq, hpre, hm⟩
          refine ⟨l :: pre, m, post, by rw [heq, List.cons_append], ?_, hm⟩
          intro x hx
          rcases List.mem_cons.mp hx with hx | hx
          · rw [hx]; exact ⟨hok', herr'⟩
          · exact hpre x hx
        · rintro ⟨pre, m, post, heq, hpre, hm⟩
          cases pre with
          | nil =>
            simp only [List.nil_append, List.cons.injEq] at heq
            rw [← heq.1] at hm
            exact absurd hm (by simp [hok'])
          | cons p pre2 =>
            simp only [List.cons_append, List.cons.injEq] at heq
            exact ⟨pre2, m, post, heq.2, fun x hx => hpre x (by simp [hx]), hm⟩

/-- `resolveLines` yields `Failed` exactly when some line contains
`"error"` but not `"ok"` and every earlier line is chatter. -/
theorem resolveLines_failed_iff (lines : List String) :
    resolveLines lines = .Failed ↔
      ∃ pre l post, lines = pre ++ l :: post
        ∧ (∀ m ∈ pre, chatter m)
        ∧ containsCI "ok" l = false ∧ containsCI "error" l = true := by
  induction lines with
  | nil => simp [resolveLines]
  | cons l ls ih =>
    by_cases hok : containsCI "ok" l = true
    · simp only [resolveLines, hok, if_true]
      constructor
      · intro h
        exact absurd h (by simp)
      · rintro ⟨pre, m, post, heq, hpre, hm, _⟩
        cases pre with
        | nil =>
          simp only [List.nil_append, List.cons.injEq] at heq
          rw [← heq.1] at hm
          rw [hok] at hm
          exact absurd hm (by simp)
        | cons p pre2 =>
          simp only [List.cons_append, List.cons.injEq] at heq
          have hp := hpre p (by simp)
          rw [← heq.1] at hp
          exact absurd hok (by simp [hp.1])
    · have hok' : containsCI "ok" l = false := by
        revert hok; cases containsCI "ok" l <;> simp
      by_cases herr : containsCI "error" l = true
      · simp only [resolveLines, hok', herr, Bool.false_eq_true, if_false, if_true]
        constructor
        · intro _
          exact ⟨[], l, ls, rfl, by simp, hok', herr⟩
        · intro _
          trivial
      · have herr' : containsCI "error" l = false := by
          revert herr; cases containsCI "error" l <;> simp
        simp only [resolveLines, hok', herr', Bool.false_eq_true, if_false]
        rw [ih]
        constructor
        · rintro ⟨pre, m, post, heq, hpre, hm⟩
          refine ⟨l :: pre, m, post, by rw [heq, List.cons_append], ?_, hm⟩
          intro x hx
          rcases List.mem_cons.mp hx with hx | hx
          · rw [hx]; exact ⟨hok', herr'⟩
          · exact hpre x hx
        · rintro ⟨pre, m, post, heq, hpre, hm, hm2⟩
          cases pre with
          | nil =>
            simp only [List.nil_append, List.cons.injEq] at heq
            rw [← heq.1] at hm2
            rw [herr'] at hm2
            exact absurd hm2 (by simp)
          | cons p pre2 =>
            simp only [List.cons_append, List.cons.injEq] at heq
            exact ⟨pre2, m, post, heq.2, fun x hx => hpre x (by simp [hx]), hm, hm2⟩

/-- `resolveLines` yields `TimedOut` exactly when every received line is
chatter (the wait loop expires without a resolving line). -/
theorem resolveLines_timedOut_iff (lines : List String) :
    resolveLines lines = .TimedOut ↔ ∀ m ∈ lines, chatter m := by
  induction lines with
  | nil => simp [resolveLines]
  | cons l ls ih =>
    by_cases hok : containsCI "ok" l = true
    · simp only [resolveLines, hok, if_true]
      constructor
      · intro h
        exact absurd h (by simp)
      · intro h
        have h1 := (h l (by simp)).1
        rw [hok] at h1
        exact absurd h1 (by simp)
    · have hok' : containsCI "ok" l = false := by
        revert hok; cases containsCI "ok" l <;> simp
      by_cases herr : containsCI "error" l = true
      · simp only [resolveLines, hok', herr, Bool.false_eq_true, if_false, if_true]
        constructor
        · intro h
          exact absurd h (by simp)
        · intro h
          have h1 := (h l (by simp)).2
          rw [herr] at h1
          exact absurd h1 (by simp)
      · have herr' : containsCI "error" l = false := by
          revert herr; cases containsCI "error" l <;> simp
        simp only [resolveLines, hok', herr', Bool.false_eq_true, if_false]
        rw [ih]
        constructor
        · intro h x hx
          rcases List.mem_cons.mp hx with hx | hx
          · rw [hx]; exact ⟨hok', herr'⟩
          · exact h x hx
        · intro h x hx
          exact h x (by simp [hx])

/-- Walking a path whose first `k` visits are undisturbed and fully
successful: the walk emits a move and a file write for each of the first
`k` wells and then continues as the walk of the remaining points. -/
theorem iterWalk_ok_prefix (env : ℕ → WellEnv) (iter : ℕ) :
    ∀ (k : ℕ) (pts : List (WellPt ℚ)) (i : ℕ), k ≤ pts.length →
      (∀ j, j < k → env (i + j) = allOk) →
      iterWalk env iter pts i
        = ((pts.take k).flatMap
              (fun p => [.moveTo p.well, .fileWrite p.well iter])
            ++ (iterWalk env iter (pts.drop k) (i + k)).1,
           (iterWalk env iter (pts.drop k) (i + k)).2) := by
  intro k
  induction k with
  | zero =>
    intro pts i _ _
    simp
  | succ k ih =>
    intro pts i hk h
    cases pts with
    | nil => simp at hk
    | cons p rest =>
      have h0 : env i = allOk := by simpa using h 0 (by omega)
      have hrest : ∀ j, j < k → env (i + 1 + j) = allOk := by
        intro j hj
        have := h (j + 1) (by omega)
        rwa [show i + (j + 1) = i + 1 + j by omega] at this
      have hk2 : k ≤ rest.length := by simpa using hk
      simp only [iterWalk, h0, allOk]
      rw [ih rest (i + 1) hk2 hrest]
      simp [List.take_succ_cons, List.drop_succ_cons,
        show i + (k + 1) = i + 1 + k by omega]

/-- The events of a run of successful visits contain no callback
invocations: the error and progress counters ignore them. -/
theorem visitEvents_counts (iter : ℕ) (l : List (WellPt ℚ)) :
    errorCount (l.flatMap (fun p => [.moveTo p.well, .fileWrite p.well iter])) = 0
    ∧ progressCount (l.flatMap (fun p => [.moveTo p.well, .fileWrite p.well iter])) = 0 := by
  induction l with
  | nil => exact ⟨rfl, rfl⟩
  | cons p rest ih =>
    simpa [errorCount, progressCount, List.filter_append] using ih

/-- The file writes recorded by a run of successful visits are exactly the
visited wells, each with the current iteration number. -/
theorem visitEvents_writes (iter : ℕ) (l : List (WellPt ℚ)) :
    writesOf (l.flatMap (fun p => [.moveTo p.well, .fileWrite p.well iter]))
      = l.map (fun p => (p.well, iter)) := by
  induction l with
  | nil => rfl
  | cons p rest ih =>
    simpa [writesOf, List.filterMap_append] using ih

/-- The motion commands recorded by a run of successful visits are exactly
the visited wells in order. -/
theorem visitEvents_moves (iter : ℕ) (l : List (WellPt ℚ)) :
    movesOf (l.flatMap (fun p => [.moveTo p.well, .fileWrite p.well iter]))
      = l.map WellPt.well := by
  induction l with
  | nil => rfl
  | cons p rest ih =>
    simpa [movesOf, List.filterMap_append] using ih

/-- `errorCount` distributes over concatenation. -/
theorem errorCount_append (a b : List Ev) :
    errorCount (a ++ b) = errorCount a + errorCount b := by
  simp [errorCount, List.filter_append]

/-- `writesOf` distributes over concatenation. -/
theorem writesOf_append (a b : List Ev) :
    writesOf (a ++ b) = writesOf a ++ writesOf b := by
  simp [writesOf]

/-- `movesOf` distributes over concatenation. -/
theorem movesOf_append (a b : List Ev) :
    movesOf (a ++ b) = movesOf a ++ movesOf b := by
  simp [movesOf]

set_option maxHeartbeats 4000000 in
/-- The snake traversal of a 6×8 grid never travels farther than the
raster traversal of the same grid: within a row both cover the same seven
column steps, and at each of the five row changes the snake moves only by
the row step while the raster additionally returns across the full row
width. -/
theorem snake_le_raster (a1 : Pos3 ℝ) (xs ys : ℝ) :
    totalDist (generate_snake_path a1 6 8 xs ys)
      ≤ totalDist (generate_raster_path a1 6 8 xs ys) := by
  have h6 : List.range 6 = [0, 1, 2, 3, 4, 5] := rfl
  have h8 : List.range 8 = [0, 1, 2, 3, 4, 5, 6, 7] := rfl
  simp only [generate_snake_path, generate_raster_path, h6, h8,
    List.flatMap_cons, List.flatMap_nil, List.map_cons, List.map_nil,
    List.append_nil, List.cons_append, List.nil_append, totalDist, add_zero]
  simp
  repeat' apply add_le_add
  all_goals apply Real.sqrt_le_sqrt
  all_goals nlinarith [sq_nonneg xs, sq_nonneg ys]

/-- The terminal state of `get_current_position`: either it returns `None`
and the `GCode` state is untouched, or it returns a parsed position and
the state differs only in `current_position`, which now holds it. -/
theorem gcp_state (pfloat : String → Option ℚ) (sendOk : Bool)
    (resp : Option String) (s : GState) :
    get_current_position pfloat sendOk resp s = (none, s)
    ∨ (∃ p, get_current_position pfloat sendOk resp s
        = (some p, { s with current_position := p })) := by
  cases sendOk with
  | false => exact Or.inl rfl
  | true =>
    cases resp with
    | none => exact Or.inl rfl
    | some r =>
      rcases hp : parseParts pfloat (pyWords r) (none, none, none)
        with _ | ⟨ox, oy, oz⟩
      · exact Or.inl (by simp [get_current_position, hp])
      · rcases ox with _ | x
        · exact Or.inl (by simp [get_current_position, hp])
        · rcases oy with _ | y
          · exact Or.inl (by simp [get_current_position, hp])
          · rcases oz with _ | z
            · exact Or.inl (by simp [get_current_position, hp])
            · exact Or.inr ⟨⟨x, y, z⟩, by simp [get_current_position, hp]⟩

/-- **C1.** In the claude9jan controller the claim holds: `move_xyz` on a
failed send returns `false` and leaves `current_position` unchanged, and
on an acknowledged send returns `true` and sets `current_position` to the
clamped target.  The claude8jan variant, however, violates the claim: from
tracked position (1, 2, 3), a request `move_xyz(4, 5, 6)` whose
`send_gcode` fails (rejected or timed out) still overwrites
`current_position` with (4, 5, 6) — a changed position — and the method
returns `None`, not `False`. -/
theorem C1_move_failure_semantics :
    (∀ (s : GState) (x y z : ℚ),
        (move_xyz s x y z false).1 = false
        ∧ (move_xyz s x y z false).2.1.current_position = s.current_position
        ∧ (move_xyz s x y z true).1 = true
        ∧ (move_xyz s x y z true).2.1.current_position
            = ⟨max 0 x, max 0 y, max 0 z⟩)
    ∧ move_xyz8 ⟨⟨1, 2, 3⟩, 2000⟩ 4 5 6 false
        = (⟨⟨4, 5, 6⟩, 2000⟩, ⟨4, 5, 6, 2000⟩)
    ∧ (⟨4, 5, 6⟩ : Pos3 ℚ) ≠ ⟨1, 2, 3⟩ := by
  have h4 : max (0 : ℚ) 4 = 4 := max_eq_right (by norm_num)
  have h5 : max (0 : ℚ) 5 = 5 := max_eq_right (by norm_num)
  have h6 : max (0 : ℚ) 6 = 6 := max_eq_right (by norm_num)
  refine ⟨fun s x y z => ⟨rfl, rfl, rfl, rfl⟩, ?_, ?_⟩
  · simp [move_xyz8, h4, h5, h6]
  · simp only [ne_eq, Pos3.mk.injEq, not_and]
    intro h
    norm_num at h

/-- **C2, counterexample.** The claim demands that a response line
containing the case-insensitive substring `"error"` resolve the in-flight
command as Failed; the line `"ok error"` contains `"error"` yet the code
resolves it as Acknowledged, because the `"ok"` test is made first. -/
theorem C2_counterexample :
    containsCI "error" "ok error" = true
    ∧ resolveLines ["ok error"] = .Acknowledged
    ∧ resolveLines ["ok error"] ≠ .Failed := by decide

/-- **C2, amended.** A command resolves Acknowledged exactly when a
response line containing `"ok"` (case-insensitive) arrives after only
chatter lines; it resolves Failed exactly when a line containing
`"error"` *but not* `"ok"` arrives after only chatter (the `"ok"` test
takes precedence); and it times out exactly when every line received
within the budget is chatter. -/
theorem C2_resolution_amended (lines : List String) :
    (resolveLines lines = .Acknowledged ↔
      ∃ pre l post, lines = pre ++ l :: post
        ∧ (∀ m ∈ pre, chatter m) ∧ containsCI "ok" l = true)
    ∧ (resolveLines lines = .Failed ↔
      ∃ pre l post, lines = pre ++ l :: post
        ∧ (∀ m ∈ pre, chatter m)
        ∧ containsCI "ok" l = false ∧ containsCI "error" l = true)
    ∧ (resolveLines lines = .TimedOut ↔ ∀ m ∈ lines, chatter m) :=
  ⟨resolveLines_ack_iff lines, resolveLines_failed_iff lines,
    resolveLines_timedOut_iff lines⟩

/-- **C3.** For every corner set with all four corners present, both the
snake and the raster generation over the configured 6×8 plate return
exactly 48 points, whose well labels are a permutation of (i.e. equal as
a multiset to) the Cartesian product {A..F}×{1..8}, with no duplicate
points. -/
theorem C3_path_completeness (A1 A8 F8 F1 : Pos3 ℚ) :
    ((generate_path A1 A8 F8 F1 .snake).length = 48
      ∧ ((generate_path A1 A8 F8 F1 .snake).map WellPt.well).Perm allWellLabels
      ∧ (generate_path A1 A8 F8 F1 .snake).Nodup)
    ∧ ((generate_path A1 A8 F8 F1 .raster).length = 48
      ∧ ((generate_path A1 A8 F8 F1 .raster).map WellPt.well).Perm allWellLabels
      ∧ (generate_path A1 A8 F8 F1 .raster).Nodup) := by
  have hs : (generate_path A1 A8 F8 F1 .snake).map WellPt.well
      = (generate_path (⟨0, 0, 0⟩ : Pos3 ℚ) ⟨0, 0, 0⟩ ⟨0, 0, 0⟩ ⟨0, 0, 0⟩
          .snake).map WellPt.well := rfl
  have hr : (generate_path A1 A8 F8 F1 .raster).map WellPt.well
      = (generate_path (⟨0, 0, 0⟩ : Pos3 ℚ) ⟨0, 0, 0⟩ ⟨0, 0, 0⟩ ⟨0, 0, 0⟩
          .raster).map WellPt.well := rfl
  refine ⟨⟨rfl, ?_, ?_⟩, rfl, ?_, ?_⟩
  · rw [hs]; decide
  · refine List.Nodup.of_map WellPt.well ?_
    rw [hs]; decide
  · rw [hr]; decide
  · refine List.Nodup.of_map WellPt.well ?_
    rw [hr]; decide

/-- **C4.** For corners A1 = (0,0,0), A8 = (70,0,0), F8 = (70,50,0),
F1 = (0,50,0) the snake path starts at well A1 = (0,0,0), reaches
A8 = (70,0,0) as its eighth point, and its ninth point is B8 = (70,10,0):
the second (odd-indexed) row starts at the reversed end, and the label
names the logical grid cell. -/
theorem C4_snake_scenarioA :
    (generate_path (α := ℚ) ⟨0, 0, 0⟩ ⟨70, 0, 0⟩ ⟨70, 50, 0⟩ ⟨0, 50, 0⟩
        .snake).get? 0 = some ⟨0, 0, 0, "A1"⟩
    ∧ (generate_path (α := ℚ) ⟨0, 0, 0⟩ ⟨70, 0, 0⟩ ⟨70, 50, 0⟩ ⟨0, 50, 0⟩
        .snake).get? 7 = some ⟨70, 0, 0, "A8"⟩
    ∧ (generate_path (α := ℚ) ⟨0, 0, 0⟩ ⟨70, 0, 0⟩ ⟨70, 50, 0⟩ ⟨0, 50, 0⟩
        .snake).get? 8 = some ⟨70, 10, 0, "B8"⟩ := by
  refine ⟨?_, ?_, ?_⟩ <;>
    · norm_num [generate_path, generate_snake_path, WELL_PLATE_ROWS,
        WELL_PLATE_COLS, List.range_succ, rowLabels, colLabels]
      try rfl

/-- **C5.** For every corner set, the total Euclidean travel distance of
the snake path is at most that of the raster path generated from the same
corners. -/
theorem C5_snake_never_longer (A1 A8 F8 F1 : Pos3 ℝ) :
    totalDist (generate_path A1 A8 F8 F1 .snake)
      ≤ totalDist (generate_path A1 A8 F8 F1 .raster) := by
  simpa [generate_path, WELL_PLATE_ROWS, WELL_PLATE_COLS] using
    snake_le_raster A1 ((A8.X - A1.X) / ((8 - 1 : ℕ) : ℝ))
      ((F1.Y - A1.Y) / ((6 - 1 : ℕ) : ℝ))

/-- **C6.** For every requested (x, y, z), including negative components,
`move_xyz` interpolates `max 0 _` of each component into the issued move
command, and after a successful move the tracked position equals the
clamped target and has no negative component — in both the claude9jan and
the claude8jan controller. -/
theorem C6_clamping (s : GState) (s8 : GState8) (x y z : ℚ) (sendOk : Bool) :
    ((move_xyz s x y z sendOk).2.2 = ⟨max 0 x, max 0 y, max 0 z, s.feedrate⟩
      ∧ (move_xyz s x y z true).2.1.current_position = ⟨max 0 x, max 0 y, max 0 z⟩
      ∧ 0 ≤ (move_xyz s x y z true).2.1.current_position.X
      ∧ 0 ≤ (move_xyz s x y z true).2.1.current_position.Y
      ∧ 0 ≤ (move_xyz s x y z true).2.1.current_position.Z)
    ∧ ((move_xyz8 s8 x y z sendOk).2 = ⟨max 0 x, max 0 y, max 0 z, s8.feedrate⟩
      ∧ 0 ≤ (move_xyz8 s8 x y z sendOk).1.current_position.X
      ∧ 0 ≤ (move_xyz8 s8 x y z sendOk).1.current_position.Y
      ∧ 0 ≤ (move_xyz8 s8 x y z sendOk).1.current_position.Z) := by
  cases sendOk <;> simp [move_xyz, move_xyz8, le_max_left]

/-- **C7, counterexample.** A two-well iteration whose second well's
capture returns `None`: the run does abort (running flag cleared, no file
written for well A2) but the error callback fires **twice** — once from
`_execute_iteration`'s handler and once from `_experiment_loop`'s — not
exactly once as the claim states. -/
theorem C7_counterexample :
    errorCount (loopPass ⟨true, false, 0, 10⟩
        [⟨0, 0, 0, "A1"⟩, ⟨1, 0, 0, "A2"⟩]
        (fun i => if i = 0 then allOk else ⟨true, false, true, false, true⟩)).2 = 2
    ∧ errorCount (loopPass ⟨true, false, 0, 10⟩
        [⟨0, 0, 0, "A1"⟩, ⟨1, 0, 0, "A2"⟩]
        (fun i => if i = 0 then allOk else ⟨true, false, true, false, true⟩)).2 ≠ 1
    ∧ (loopPass ⟨true, false, 0, 10⟩
        [⟨0, 0, 0, "A1"⟩, ⟨1, 0, 0, "A2"⟩]
        (fun i => if i = 0 then allOk else ⟨true, false, true, false, true⟩)).1.is_running
      = false
    ∧ writesOf (loopPass ⟨true, false, 0, 10⟩
        [⟨0, 0, 0, "A1"⟩, ⟨1, 0, 0, "A2"⟩]
        (fun i => if i = 0 then allOk else ⟨true, false, true, false, true⟩)).2
      = [("A1", 0)] := by decide

/-- **C7, amended.** If the capture source returns `None` at the `k`-th
well of an iteration (all earlier wells having succeeded), the run loop
aborts: the experiment leaves the running state, the error callback is
invoked exactly **twice** (`"Iteration error: …"` then
`"Experiment error: …"`), the iteration counter is not advanced, and the
only files written are those of the `k` earlier wells — none for the
failing well. -/
theorem C7_capture_none_amended (s : ExpState) (pts : List (WellPt ℚ))
    (env : ℕ → WellEnv) (k : ℕ) (hk : k < pts.length)
    (henvk : env k = ⟨true, false, true, false, true⟩)
    (hprev : ∀ j, j < k → env j = allOk) :
    (loopPass s pts env).1.is_running = false
    ∧ (loopPass s pts env).1.current_iteration = s.current_iteration
    ∧ errorCount (loopPass s pts env).2 = 2
    ∧ writesOf (loopPass s pts env).2
        = (pts.take k).map (fun p => (p.well, s.current_iteration)) := by
  have hprev0 : ∀ j, j < k → env (0 + j) = allOk := by simpa using hprev
  have hwalk := iterWalk_ok_prefix env s.current_iteration k pts 0
    (le_of_lt hk) hprev0
  have hdrop : pts.drop k = pts[k] :: pts.drop (k + 1) :=
    List.drop_eq_getElem_cons hk
  rw [hdrop] at hwalk
  have hzk : (0 : ℕ) + k = k := by omega
  rw [hzk] at hwalk
  have hstep : iterWalk env s.current_iteration (pts[k] :: pts.drop (k + 1)) k
      = ([.moveTo (pts[k].well)], .raised "Failed to capture image") := by
    simp [iterWalk, henvk]
  rw [hstep] at hwalk
  have hloop : loopPass s pts env
      = ({ s with is_running := false, is_paused := false },
         ((pts.take k).flatMap
            (fun p => [.moveTo p.well, .fileWrite p.well s.current_iteration])
          ++ [.moveTo (pts[k].well)]
          ++ [.error "Iteration error: Failed to capture image"]
          ++ [.error "Experiment error: Failed to capture image"]
          ++ [.status "Experiment stopped"])) := by
    simp [loopPass, execIter, hwalk, expStop]
  rw [hloop]
  refine ⟨rfl, rfl, ?_, ?_⟩
  · rw [errorCount_append, errorCount_append, errorCount_append,
      errorCount_append, (visitEvents_counts s.current_iteration (pts.take k)).1]
    rfl
  · rw [writesOf_append, writesOf_append, writesOf_append, writesOf_append,
      visitEvents_writes s.current_iteration (pts.take k)]
    simp [writesOf]

/-- **C7, witness.** The amended theorem applied to the concrete two-well
run whose second capture returns `None`. -/
theorem C7_capture_none_amended_witness :
    (loopPass ⟨true, false, 0, 10⟩ [⟨0, 0, 0, "A1"⟩, ⟨1, 0, 0, "A2"⟩]
        (fun i => if i = 0 then allOk else ⟨true, false, true, false, true⟩)).1.is_running
      = false
    ∧ (loopPass ⟨true, false, 0, 10⟩ [⟨0, 0, 0, "A1"⟩, ⟨1, 0, 0, "A2"⟩]
        (fun i => if i = 0 then allOk else ⟨true, false, true, false, true⟩)).1.current_iteration
      = (⟨true, false, 0, 10⟩ : ExpState).current_iteration
    ∧ errorCount (loopPass ⟨true, false, 0, 10⟩ [⟨0, 0, 0, "A1"⟩, ⟨1, 0, 0, "A2"⟩]
        (fun i => if i = 0 then allOk else ⟨true, false, true, false, true⟩)).2 = 2
    ∧ writesOf (loopPass ⟨true, false, 0, 10⟩ [⟨0, 0, 0, "A1"⟩, ⟨1, 0, 0, "A2"⟩]
        (fun i => if i = 0 then allOk else ⟨true, false, true, false, true⟩)).2
      = (([⟨0, 0, 0, "A1"⟩, ⟨1, 0, 0, "A2"⟩] : List (WellPt ℚ)).take 1).map
          (fun p => (p.well, (⟨true, false, 0, 10⟩ : ExpState).current_iteration)) :=
  C7_capture_none_amended ⟨true, false, 0, 10⟩ [⟨0, 0, 0, "A1"⟩, ⟨1, 0, 0, "A2"⟩]
    (fun i => if i = 0 then allOk else ⟨true, false, true, false, true⟩) 1
    (by decide) (by decide) (by decide)

/-- **C8, counterexample.** `stop()` on an already-stopped experiment
(both flags already false) still fires the status callback
`"Experiment stopped"` — the claim that no additional callback is issued
is false. -/
theorem C8_counterexample :
    (expStop ⟨false, false, 2, 9⟩).2 = [Ev.status "Experiment stopped"]
    ∧ (expStop ⟨false, false, 2, 9⟩).2 ≠ ([] : List Ev) := by decide

/-- **C8, amended.** `stop()` on an already-stopped experiment leaves the
whole state record unchanged and issues no progress or error callback,
but it does issue exactly one status callback, `"Experiment stopped"`. -/
theorem C8_stop_amended (s : ExpState) (h1 : s.is_running = false)
    (h2 : s.is_paused = false) :
    (expStop s).1 = s
    ∧ (expStop s).2 = [Ev.status "Experiment stopped"]
    ∧ errorCount (expStop s).2 = 0
    ∧ progressCount (expStop s).2 = 0 := by
  refine ⟨?_, rfl, rfl, rfl⟩
  cases s
  simp_all [expStop]

/-- **C8, witness.** The amended theorem at a concrete stopped state. -/
theorem C8_stop_amended_witness :
    (expStop ⟨false, false, 2, 9⟩).1 = ⟨false, false, 2, 9⟩
    ∧ (expStop ⟨false, false, 2, 9⟩).2 = [Ev.status "Experiment stopped"]
    ∧ errorCount (expStop ⟨false, false, 2, 9⟩).2 = 0
    ∧ progressCount (expStop ⟨false, false, 2, 9⟩).2 = 0 :=
  C8_stop_amended ⟨false, false, 2, 9⟩ rfl rfl

/-- **C9.** If the stop/pause check interrupts the walk at the `k`-th well
(all earlier wells undisturbed and successful), `_execute_iteration`
returns early: the state — in particular `current_iteration` — is exactly
the input state, and motion was commanded only to the first `k` wells.
A subsequent undisturbed call (after `resume()`) then walks the whole
path from its first well again, writing every well's file under the same
iteration number, and only then increments the counter. -/
theorem C9_pause_midwalk (s : ExpState) (pts : List (WellPt ℚ))
    (env : ℕ → WellEnv) (k : ℕ) (hk : k < pts.length)
    (henvk : (env k).running = false ∨ (env k).paused = true)
    (hprev : ∀ j, j < k → env j = allOk) :
    execIter s pts env
      = (s, (pts.take k).flatMap
          (fun p => [.moveTo p.well, .fileWrite p.well s.current_iteration]),
         .earlyReturn)
    ∧ movesOf (execIter s pts env).2.1 = (pts.take k).map WellPt.well
    ∧ execIter s pts (fun _ => allOk)
        = ({ s with current_iteration := s.current_iteration + 1 },
           pts.flatMap (fun p =>
             [.moveTo p.well, .fileWrite p.well s.current_iteration])
             ++ [.progress (s.current_iteration + 1) s.total_iterations],
           .completed)
    ∧ writesOf (execIter s pts (fun _ => allOk)).2.1
        = pts.map (fun p => (p.well, s.current_iteration)) := by
  have hprev0 : ∀ j, j < k → env (0 + j) = allOk := by simpa using hprev
  have hwalk := iterWalk_ok_prefix env s.current_iteration k pts 0
    (le_of_lt hk) hprev0
  have hdrop : pts.drop k = pts[k] :: pts.drop (k + 1) :=
    List.drop_eq_getElem_cons hk
  rw [hdrop] at hwalk
  have hzk : (0 : ℕ) + k = k := by omega
  rw [hzk] at hwalk
  have hstep : iterWalk env s.current_iteration (pts[k] :: pts.drop (k + 1)) k
      = ([], .earlyReturn) := by
    rcases henvk with h | h <;> simp [iterWalk, h]
  rw [hstep] at hwalk
  have hexec : execIter s pts env
      = (s, (pts.take k).flatMap
          (fun p => [.moveTo p.well, .fileWrite p.well s.current_iteration]),
         .earlyReturn) := by
    simp [execIter, hwalk]
  have hwalk2 := iterWalk_ok_prefix (fun _ => allOk) s.current_iteration
    pts.length pts 0 le_rfl (fun j _ => rfl)
  have hexec2 : execIter s pts (fun _ => allOk)
      = ({ s with current_iteration := s.current_iteration + 1 },
         pts.flatMap (fun p =>
           [.moveTo p.well, .fileWrite p.well s.current_iteration])
           ++ [.progress (s.current_iteration + 1) s.total_iterations],
         .completed) := by
    simp only [List.drop_length, List.take_length] at hwalk2
    simp [execIter, hwalk2, iterWalk]
  refine ⟨hexec, ?_, hexec2, ?_⟩
  · rw [hexec]
    exact visitEvents_moves s.current_iteration (pts.take k)
  · rw [hexec2]
    rw [writesOf_append, visitEvents_writes s.current_iteration pts]
    simp [writesOf]

/-- **C9, witness.** The theorem at a concrete two-well path paused at the
second well, then resumed undisturbed. -/
theorem C9_pause_midwalk_witness :
    execIter ⟨true, false, 0, 10⟩ [⟨0, 0, 0, "A1"⟩, ⟨1, 0, 0, "A2"⟩]
        (fun i => if i = 0 then allOk else ⟨true, true, true, true, true⟩)
      = (⟨true, false, 0, 10⟩,
         (([⟨0, 0, 0, "A1"⟩, ⟨1, 0, 0, "A2"⟩] : List (WellPt ℚ)).take 1).flatMap
           (fun p => [.moveTo p.well,
             .fileWrite p.well (⟨true, false, 0, 10⟩ : ExpState).current_iteration]),
         .earlyReturn)
    ∧ movesOf (execIter ⟨true, false, 0, 10⟩ [⟨0, 0, 0, "A1"⟩, ⟨1, 0, 0, "A2"⟩]
        (fun i => if i = 0 then allOk else ⟨true, true, true, true, true⟩)).2.1
      = (([⟨0, 0, 0, "A1"⟩, ⟨1, 0, 0, "A2"⟩] : List (WellPt ℚ)).take 1).map WellPt.well
    ∧ execIter ⟨true, false, 0, 10⟩ [⟨0, 0, 0, "A1"⟩, ⟨1, 0, 0, "A2"⟩] (fun _ => allOk)
      = (⟨true, false, 1, 10⟩,
         ([⟨0, 0, 0, "A1"⟩, ⟨1, 0, 0, "A2"⟩] : List (WellPt ℚ)).flatMap
           (fun p => [.moveTo p.well,
             .fileWrite p.well (⟨true, false, 0, 10⟩ : ExpState).current_iteration])
           ++ [.progress 1 10],
         .completed)
    ∧ writesOf (execIter ⟨true, false, 0, 10⟩ [⟨0, 0, 0, "A1"⟩, ⟨1, 0, 0, "A2"⟩]
        (fun _ => allOk)).2.1
      = ([⟨0, 0, 0, "A1"⟩, ⟨1, 0, 0, "A2"⟩] : List (WellPt ℚ)).map
          (fun p => (p.well, (⟨true, false, 0, 10⟩ : ExpState).current_iteration)) :=
  C9_pause_midwalk ⟨true, false, 0, 10⟩ [⟨0, 0, 0, "A1"⟩, ⟨1, 0, 0, "A2"⟩]
    (fun i => if i = 0 then allOk else ⟨true, true, true, true, true⟩) 1
    (by decide) (by decide) (by decide)

/-- **C10.** `get_current_position` mutates the tracked state exactly when
it returns a position: the new `current_position` is the returned triple
(overwritten before returning) while `target_position` and the feedrate
are never touched; whenever it returns `None` — send failure, no
response, a `ValueError` during parsing, or a missing axis — the state is
unchanged.  The concrete cases: a response naming all three axes (with a
colon-free word and a duplicate axis entry, which overwrites) updates the
position; one with a missing `Z` axis, and one whose `X:1:2` part makes
`part.split(':')` raise, return `None` and change nothing. -/
theorem C10_query_position_side_effect (pfloat : String → Option ℚ)
    (sendOk : Bool) (resp : Option String) (s : GState) :
    ((get_current_position pfloat sendOk resp s).2.current_position
        = ((get_current_position pfloat sendOk resp s).1).getD s.current_position)
    ∧ (get_current_position pfloat sendOk resp s).2.target_position
        = s.target_position
    ∧ (get_current_position pfloat sendOk resp s).2.feedrate = s.feedrate
    ∧ get_current_position pfloat sendOk none s = (none, s)
    ∧ get_current_position simpleFloat true (some "X:1 Y:2 Z:3 Count X:4")
        ⟨⟨9, 9, 9⟩, ⟨8, 8, 8⟩, 2000⟩
      = (some ⟨4, 2, 3⟩, ⟨⟨4, 2, 3⟩, ⟨8, 8, 8⟩, 2000⟩)
    ∧ get_current_position simpleFloat true (some "X:1 Y:2 E:3")
        ⟨⟨9, 9, 9⟩, ⟨8, 8, 8⟩, 2000⟩
      = (none, ⟨⟨9, 9, 9⟩, ⟨8, 8, 8⟩, 2000⟩)
    ∧ get_current_position simpleFloat true (some "X:1:2 Y:2 Z:3")
        ⟨⟨9, 9, 9⟩, ⟨8, 8, 8⟩, 2000⟩
      = (none, ⟨⟨9, 9, 9⟩, ⟨8, 8, 8⟩, 2000⟩) := by
  refine ⟨?_, ?_, ?_, ?_, by decide, by decide, by decide⟩
  · rcases gcp_state pfloat sendOk resp s with h | ⟨p, h⟩ <;> rw [h] <;> rfl
  · rcases gcp_state pfloat sendOk resp s with h | ⟨p, h⟩ <;> rw [h]
  · rcases gcp_state pfloat sendOk resp s with h | ⟨p, h⟩ <;> rw [h]
  · cases sendOk <;> rfl
